import Mathlib

/-!
Shallow embedding of the normalization and link-derivation core of the
shreeramapi repository (YouTube proxy API).

Source functions embedded here:
* YouTubeHelper.parseDuration, parseViewCount, formatImageQuality
  (src/unnamed/part_002, lines 5-30)
* YouTubeHelper.transformYouTubeVideo (src/unnamed/part_002, lines 32-67)
* YouTubeService.formatDuration (youtube.service.ts, lines 130-142)
* deriveLinks (link derivation; the implementation file is not present in
  the repository snapshot, so it is modelled from the spec, see below)

JavaScript numbers are modelled by JSNum: either NaN or an integer.  The
functions in this repository only ever produce integer-valued numbers or
NaN (Number.parseInt on base-10/base-16 text, sums and products of such),
so this model is exact except for float-precision loss on astronomically
long digit runs, which we do not model.
-/

/-- A JavaScript number as produced by Number.parseInt and integer
arithmetic on its results: either NaN or an integer value. -/
inductive JSNum where
  | nan : JSNum
  | int : Int → JSNum
deriving Repr, DecidableEq

/-- JavaScript addition restricted to the values that occur here:
NaN propagates, integers add exactly. -/
def JSNum.add : JSNum → JSNum → JSNum
  | JSNum.int a, JSNum.int b => JSNum.int (a + b)
  | _, _ => JSNum.nan

/-- JavaScript multiplication restricted to the values that occur here:
NaN propagates, integers multiply exactly. -/
def JSNum.mul : JSNum → JSNum → JSNum
  | JSNum.int a, JSNum.int b => JSNum.int (a * b)
  | _, _ => JSNum.nan

/-- The JavaScript comparison n > 0 (false on NaN). -/
def JSNum.gtZero : JSNum → Bool
  | JSNum.nan => false
  | JSNum.int i => 0 < i

/-- ASCII whitespace skipped by Number.parseInt (we model the ASCII
subset of the WhiteSpace/LineTerminator classes; the repository never
feeds non-ASCII whitespace to parseInt). -/
def isSpaceChar (c : Char) : Bool :=
  c == ' ' || c == '\t' || c == '\n' || c == '\r' || c == '\x0b' || c == '\x0c'

/-- Value of a decimal digit character. -/
def digitVal (c : Char) : Option Nat :=
  if '0' ≤ c ∧ c ≤ '9' then some (c.toNat - '0'.toNat) else none

/-- Value of a hexadecimal digit character. -/
def hexVal (c : Char) : Option Nat :=
  if '0' ≤ c ∧ c ≤ '9' then some (c.toNat - '0'.toNat)
  else if 'a' ≤ c ∧ c ≤ 'f' then some (c.toNat - 'a'.toNat + 10)
  else if 'A' ≤ c ∧ c ≤ 'F' then some (c.toNat - 'A'.toNat + 10)
  else none

/-- Accumulate the value of a digit string in the given radix. -/
def digitsVal (val : Char → Option Nat) (radix : Nat) (ds : List Char) : Nat :=
  ds.foldl (fun acc c => acc * radix + (val c).getD 0) 0

/-- Parse the maximal leading run of digits of the given radix;
NaN when the run is empty (Number.parseInt step 12-13). -/
def parseRadix (val : Char → Option Nat) (radix : Nat) (sign : Int)
    (cs : List Char) : JSNum :=
  let ds := cs.takeWhile (fun c => (val c).isSome)
  if ds = [] then JSNum.nan
  else JSNum.int (sign * Int.ofNat (digitsVal val radix ds))

/-- Sign-stripped body of Number.parseInt: hex-marker dispatch. -/
def parseIntBody (sign : Int) (cs : List Char) : JSNum :=
  match cs with
  | '0' :: x :: rest =>
    if x == 'x' || x == 'X' then parseRadix hexVal 16 sign rest
    else parseRadix digitVal 10 sign cs
  | _ => parseRadix digitVal 10 sign cs

/-- Number.parseInt with no radix argument, on a character list: skip
leading whitespace, read an optional sign, honour a 0x/0X hex marker,
then parse the maximal digit run, ignoring any trailing characters. -/
def parseIntChars (cs0 : List Char) : JSNum :=
  let cs1 := cs0.dropWhile isSpaceChar
  match cs1 with
  | '-' :: rest => parseIntBody (-1) rest
  | '+' :: rest => parseIntBody 1 rest
  | _ => parseIntBody 1 cs1

/-- Number.parseInt(s) as used by the repository (radix argument omitted,
hence base 10 with a 0x hex escape). -/
def parseInt (s : String) : JSNum :=
  parseIntChars s.toList

/-- String.prototype.split with a single separator character: every
occurrence of the separator delimits a (possibly empty) field, and the
empty string yields the single field "". -/
def splitChars (sep : Char) : List Char → List (List Char)
  | [] => [[]]
  | c :: cs =>
    let rest := splitChars sep cs
    if c == sep then [] :: rest
    else
      match rest with
      | r :: rs => (c :: r) :: rs
      | [] => [[c]]

/-- The forEach loop of YouTubeHelper.parseDuration:
seconds += Number.parseInt(part) * Math.pow(60, index). -/
def durationLoop : List (List Char) → Nat → JSNum → JSNum
  | [], _, acc => acc
  | p :: ps, i, acc =>
      durationLoop ps (i + 1)
        (JSNum.add acc (JSNum.mul (parseIntChars p) (JSNum.int ((60 : Int) ^ i))))

/-- YouTubeHelper.parseDuration (src/unnamed/part_002, lines 5-16):
null on a missing or empty (falsy) input, otherwise split on ':',
reverse, and sum parseInt(part) * 60^index. -/
def parseDuration : Option String → Option JSNum
  | none => none
  | some s =>
    if s = "" then none
    else
      some (durationLoop ((splitChars ':' s.toList).reverse) 0 (JSNum.int 0))

/-- Characters matched by the regular expression class [\d,]. -/
def isDigitOrComma (c : Char) : Bool :=
  c.isDigit || c == ','

/-- First match of a +-quantified character class: the run starting at
the first character satisfying p, extended maximally.  Embeds the
semantics of String.prototype.match with a regex of the form [class]+. -/
def firstRun (p : Char → Bool) : List Char → Option (List Char)
  | [] => none
  | c :: cs => if p c then some (c :: cs.takeWhile p) else firstRun p cs

/-- YouTubeHelper.parseViewCount (src/unnamed/part_002, lines 18-22):
null on falsy input, else match /[\d,]+/, strip commas, parseInt;
null when the regex does not match. -/
def parseViewCount : Option String → Option JSNum
  | none => none
  | some s =>
    if s = "" then none
    else
      match firstRun isDigitOrComma s.toList with
      | some run => some (parseInt (String.mk (run.filter (fun c => !(c == ',')))))
      | none => none

/-- YouTubeHelper.formatImageQuality (src/unnamed/part_002, lines 24-30):
threshold chain on the width. -/
def formatImageQuality (width : Int) : String :=
  if width ≥ 1280 then "1280x720"
  else if width ≥ 640 then "640x480"
  else if width ≥ 480 then "480x360"
  else if width ≥ 320 then "320x180"
  else "120x90"

/-- The decimal digit character for d (0-9). -/
def digitChar (d : Nat) : Char := Char.ofNat ('0'.toNat + d)

/-- Fuel-indexed little-endian decimal digits of a natural number
(fuel-structural so that it reduces in the kernel). -/
def natDigitsRevAux : Nat → Nat → List Char
  | 0, _ => []
  | _ + 1, 0 => []
  | fuel + 1, n + 1 => digitChar ((n + 1) % 10) :: natDigitsRevAux fuel ((n + 1) / 10)

/-- Little-endian decimal digits of a natural number ([] for 0). -/
def natDigitsRev (n : Nat) : List Char := natDigitsRevAux n n

/-- Decimal rendering of a natural number, as JavaScript renders an
integer-valued number. -/
def natRepr (n : Nat) : String :=
  if n = 0 then "0" else String.mk (natDigitsRev n).reverse

/-- String(n) / template-literal rendering of a JavaScript number of the
shapes that occur here (integer or NaN). -/
def JSNum.toStr : JSNum → String
  | JSNum.nan => "NaN"
  | JSNum.int i => if i < 0 then "-" ++ natRepr i.natAbs else natRepr i.natAbs

/-- String.prototype.padStart(n, c). -/
def padStart (n : Nat) (c : Char) (s : String) : String :=
  if n ≤ s.length then s
  else String.mk (List.replicate (n - s.length) c) ++ s

/-- One optional group (?:(\d+)X)? of the duration regex, matched at the
current position: succeeds exactly when a nonempty maximal digit run is
followed by the letter, consuming both; otherwise consumes nothing.
(Backtracking a greedy \d+ to a shorter run can never help, since the
character after a shorter run is a digit, not the letter.) -/
def matchNumGroup (letter : Char) (cs : List Char) : Option (List Char) × List Char :=
  let ds := cs.takeWhile Char.isDigit
  match ds with
  | [] => (none, cs)
  | _ :: _ =>
    match cs.dropWhile Char.isDigit with
    | r :: rs => if r == letter then (some ds, rs) else (none, cs)
    | [] => (none, cs)

/-- Position of the leftmost literal "PT" in the input: the regex
/PT(?:(\d+)H)?(?:(\d+)M)?(?:(\d+)S)?/ matches at the leftmost
occurrence of "PT" (all groups being optional) and fails only when
there is none.  Returns the suffix after that occurrence. -/
def findPT : List Char → Option (List Char)
  | [] => none
  | c :: cs =>
    if c == 'P' then
      match cs with
      | t :: rest => if t == 'T' then some rest else findPT cs
      | [] => none
    else findPT cs

/-- YouTubeService.formatDuration (youtube.service.ts, lines 130-142):
match /PT(?:(\d+)H)?(?:(\d+)M)?(?:(\d+)S)?/, default each group to 0,
and format as H:MM:SS when hours > 0, else M:SS; "0:00" when the
pattern does not match. -/
def formatDuration (isoDuration : String) : String :=
  match findPT isoDuration.toList with
  | none => "0:00"
  | some rest =>
    let p1 := matchNumGroup 'H' rest
    let p2 := matchNumGroup 'M' p1.2
    let p3 := matchNumGroup 'S' p2.2
    let hours : JSNum := match p1.1 with | some ds => parseIntChars ds | none => JSNum.int 0
    let minutes : JSNum := match p2.1 with | some ds => parseIntChars ds | none => JSNum.int 0
    let seconds : JSNum := match p3.1 with | some ds => parseIntChars ds | none => JSNum.int 0
    if JSNum.gtZero hours then
      JSNum.toStr hours ++ ":" ++ padStart 2 '0' (JSNum.toStr minutes) ++ ":"
        ++ padStart 2 '0' (JSNum.toStr seconds)
    else
      JSNum.toStr minutes ++ ":" ++ padStart 2 '0' (JSNum.toStr seconds)

/-- An upstream thumbnail record (youtube-video.model.ts, lines 6-13). -/
structure Thumbnail where
  url : String
  width : Int
  height : Int
deriving Repr, DecidableEq

/-- The thumbnail wrapper object of the upstream response. -/
structure ThumbnailWrap where
  thumbnails : List Thumbnail
deriving Repr, DecidableEq

/-- A validated upstream video record, YouTubeVideoAPIResponseModel
(youtube-video.model.ts, lines 3-23).  Optional zod fields are Option. -/
structure YouTubeVideoAPIResponse where
  id : String
  title : String
  thumbnail : ThumbnailWrap
  channelTitle : String
  channelId : String
  description : String
  viewCount : Option String
  publishDate : Option String
  publishedText : Option String
  lengthText : Option String
  isLive : Option Bool
deriving Repr, DecidableEq

/-- An entry of the outward image array. -/
structure ImageEntry where
  quality : String
  url : String
deriving Repr, DecidableEq

/-- The outward channel object. -/
structure ChannelInfo where
  id : String
  name : String
deriving Repr, DecidableEq

/-- The outward video record, YouTubeVideoModel
(youtube-video.model.ts, lines 25-46). -/
structure YouTubeVideo where
  id : String
  name : String
  type : String
  duration : Option JSNum
  url : String
  image : List ImageEntry
  channel : ChannelInfo
  description : String
  publishDate : Option String
  viewCount : Option JSNum
  isLive : Bool
  streamUrl : Option String
deriving Repr, DecidableEq

/-- The JavaScript expression s || fallback on strings: the fallback is
taken exactly when s is the empty (falsy) string. -/
def jsOrString (s fallback : String) : String :=
  if s = "" then fallback else s

/-- The JavaScript expression o || null on an optional string: null when
the value is missing or empty (falsy). -/
def jsOrNullString : Option String → Option String
  | none => none
  | some s => if s = "" then none else some s

/-- The JavaScript expression o || false on an optional boolean. -/
def jsOrFalse : Option Bool → Bool
  | none => false
  | some b => b

/-- YouTubeHelper.transformYouTubeVideo (src/unnamed/part_002,
lines 32-67).  The awaited getYouTubeStreamUrl call is modelled by the
function argument getStream; the try/catch around it leaves streamUrl
null when getStream fails. -/
def transformYouTubeVideo (getStream : String → Except String String)
    (video : YouTubeVideoAPIResponse) (includeStreamUrl : Bool) : YouTubeVideo :=
  let images := video.thumbnail.thumbnails.map
    (fun thumb => ImageEntry.mk (formatImageQuality thumb.width) thumb.url)
  let streamUrl : Option String :=
    if includeStreamUrl then
      match getStream video.id with
      | Except.ok u => some u
      | Except.error _ => none
    else none
  { id := video.id
    name := video.title
    type := "youtube"
    duration := parseDuration video.lengthText
    url := "https://www.youtube.com/watch?v=" ++ video.id
    image := images
    channel := ChannelInfo.mk video.channelId video.channelTitle
    description := jsOrString video.description ""
    publishDate := jsOrNullString video.publishDate
    viewCount := parseViewCount video.viewCount
    isLive := jsOrFalse video.isLive
    streamUrl := streamUrl }

/-- Value of a standard base64 alphabet character. -/
def b64Val (c : Char) : Option Nat :=
  if 'A' ≤ c ∧ c ≤ 'Z' then some (c.toNat - 'A'.toNat)
  else if 'a' ≤ c ∧ c ≤ 'z' then some (c.toNat - 'a'.toNat + 26)
  else if '0' ≤ c ∧ c ≤ '9' then some (c.toNat - '0'.toNat + 52)
  else if c = '+' then some 62
  else if c = '/' then some 63
  else none

/-- Strict base64 decoding of a character list in groups of four, with
trailing '=' padding allowed only in the final group; none when the
input is not valid base64. -/
def decodeB64Groups : List Char → Option (List Nat)
  | [] => some []
  | a :: b :: c :: d :: rest =>
    match b64Val a, b64Val b with
    | some va, some vb =>
      if c = '=' then
        if d = '=' ∧ rest = [] then some [va * 4 + vb / 16] else none
      else
        match b64Val c with
        | some vc =>
          if d = '=' then
            if rest = [] then some [va * 4 + vb / 16, (vb % 16) * 16 + vc / 4]
            else none
          else
            match b64Val d with
            | some vd =>
              (decodeB64Groups rest).map
                (fun bs => (va * 4 + vb / 16) :: ((vb % 16) * 16 + vc / 4)
                  :: ((vc % 4) * 64 + vd) :: bs)
            | none => none
        | none => none
    | _, _ => none
  | _ => none

/-- Modelled from the spec: base64 decoding of an EncryptedMediaToken
into raw bytes, failing (none) when the input is not valid base64.  The
link-derivation implementation file is absent from the repository
snapshot; this definition follows spec section 4.1 step 1. -/
def decodeBase64 (s : String) : Option (List Nat) :=
  decodeB64Groups s.toList

/-- The failure kinds of link derivation (spec section 7). -/
inductive DeriveError where
  | DecodeError : DeriveError
  | DecryptError : DeriveError
deriving Repr, DecidableEq

/-- Modelled from the spec: deriveLinks (spec section 4.1).  The
implementation file is absent from the repository snapshot, so the
pipeline is modelled from the spec's words: decode the token from
base64 (DecodeError if invalid or not a multiple of the 8-byte block
size), decrypt once via the fixed-key cipher (abstracted as the
function argument decrypt, which also covers unpadding and UTF-8
interpretation; DecryptError when it fails), then for each requested
tier replace every occurrence of the fixed placeholder "320" in the
template by the tier's decimal rendering, preserving tier order. -/
def deriveLinks (decrypt : List Nat → Except Unit String)
    (token : String) (tiers : List Nat) : Except DeriveError (List (Nat × String)) :=
  match decodeBase64 token with
  | none => Except.error DeriveError.DecodeError
  | some bytes =>
    if bytes.length % 8 = 0 then
      match decrypt bytes with
      | Except.error _ => Except.error DeriveError.DecryptError
      | Except.ok template =>
        Except.ok (tiers.map (fun t => (t, template.replace "320" (natRepr t))))
    else Except.error DeriveError.DecodeError

/-- Claim-side restatement for C2: the sum of parseInt(part) * 60^i over
the (already reversed) parts, written as a direct sum rather than the
source's accumulator loop. -/
def sumTerms : List (List Char) → Nat → JSNum
  | [], _ => JSNum.int 0
  | p :: ps, i =>
      JSNum.add (JSNum.mul (parseIntChars p) (JSNum.int ((60 : Int) ^ i)))
        (sumTerms ps (i + 1))

/-- Claim-side restatement for C2: split on ':', reverse, and sum
part[i] * 60^i. -/
def parseDurationSum (s : String) : JSNum :=
  sumTerms ((splitChars ':' s.toList).reverse) 0

/-- Claim-side restatement for C4: the first maximal run of characters
satisfying p, phrased via dropWhile/takeWhile rather than the source's
scanning recursion; none when no character satisfies p. -/
def firstRunSpec (p : Char → Bool) (cs : List Char) : Option (List Char) :=
  match cs.dropWhile (fun c => !(p c)) with
  | [] => none
  | c :: rest => some (c :: rest.takeWhile p)

/-- A concrete upstream video record used to instantiate universally
quantified theorems. -/
def sampleVideo : YouTubeVideoAPIResponse :=
  { id := "dQw4w9WgXcQ"
    title := "Sample"
    thumbnail := ThumbnailWrap.mk [Thumbnail.mk "https://img.example/a.jpg" 1920 1080,
      Thumbnail.mk "https://img.example/b.jpg" 320 180]
    channelTitle := "Channel"
    channelId := "UC123"
    description := "desc"
    viewCount := some "1,234,567 views"
    publishDate := some "2020-01-01"
    publishedText := none
    lengthText := some "3:45"
    isLive := some false }

/-- A concrete stream-URL resolver used to instantiate universally
quantified theorems. -/
def sampleGetStream : String → Except String String :=
  fun vid => Except.ok ("https://stream.example/" ++ vid)

theorem JSNum.add_int_zero (x : JSNum) : JSNum.add x (JSNum.int 0) = x := by
  cases x <;> simp [JSNum.add]

theorem JSNum.int_zero_add (x : JSNum) : JSNum.add (JSNum.int 0) x = x := by
  cases x <;> simp [JSNum.add]

theorem JSNum.add_assoc (x y z : JSNum) :
    JSNum.add (JSNum.add x y) z = JSNum.add x (JSNum.add y z) := by
  cases x <;> cases y <;> cases z <;> simp [JSNum.add, Int.add_assoc]

theorem durationLoop_eq (ps : List (List Char)) :
    ∀ i acc, durationLoop ps i acc = JSNum.add acc (sumTerms ps i) := by
  induction ps with
  | nil => intro i acc; simp [durationLoop, sumTerms, JSNum.add_int_zero]
  | cons p ps ih =>
    intro i acc
    simp [durationLoop, sumTerms, ih, JSNum.add_assoc]

theorem firstRun_eq_spec (p : Char → Bool) (cs : List Char) :
    firstRun p cs = firstRunSpec p cs := by
  induction cs with
  | nil => rfl
  | cons c cs ih =>
    by_cases h : p c = true
    · simp [firstRun, firstRunSpec, h, List.dropWhile]
    · simp only [Bool.not_eq_true] at h
      simp [firstRun, firstRunSpec, h, List.dropWhile] at ih ⊢
      exact ih

theorem firstRun_eq_none_iff (p : Char → Bool) (cs : List Char) :
    firstRun p cs = none ↔ ∀ c ∈ cs, p c = false := by
  induction cs with
  | nil => simp [firstRun]
  | cons c cs ih =>
    by_cases h : p c = true <;> simp [firstRun, h, ih]

/-- Claim C2: parseDuration splits the input on ':', reverses the parts,
and returns the sum of parseInt(part[i]) * 60^i; parseDuration("3:45") =
225, parseDuration("1:02:03") = 3723, and the result is absent (null)
for undefined or empty input. -/
theorem parseDuration_correct :
    (∀ s : String, s ≠ "" → parseDuration (some s) = some (parseDurationSum s))
    ∧ parseDuration (some "3:45") = some (JSNum.int 225)
    ∧ parseDuration (some "1:02:03") = some (JSNum.int 3723)
    ∧ parseDuration none = none
    ∧ parseDuration (some "") = none := by
  refine ⟨?_, by decide, by decide, rfl, by decide⟩
  intro s hs
  simp [parseDuration, hs, parseDurationSum, durationLoop_eq, JSNum.int_zero_add]

theorem parseDuration_correct_witness :
    ("3:45" : String) ≠ ""
    ∧ parseDuration (some "3:45") = some (parseDurationSum "3:45") :=
  ⟨by decide, parseDuration_correct.1 "3:45" (by decide)⟩

/-- Claim C4: parseViewCount locates the first maximal run of digit and
comma characters, strips the commas, and applies integer parsing; it is
absent exactly when no such run exists or the input is undefined;
parseViewCount("1,234,567 views") = 1234567 and parseViewCount("") is
absent. -/
theorem parseViewCount_correct :
    (∀ s : String, parseViewCount (some s)
        = (firstRunSpec isDigitOrComma s.toList).map
            (fun run => parseInt (String.mk (run.filter (fun c => !(c == ','))))))
    ∧ parseViewCount (some "1,234,567 views") = some (JSNum.int 1234567)
    ∧ parseViewCount (some "") = none
    ∧ parseViewCount none = none := by
  refine ⟨?_, by decide, by decide, rfl⟩
  intro s
  by_cases hs : s = ""
  · subst hs; decide
  · rw [← firstRun_eq_spec]
    simp only [parseViewCount, hs, if_false]
    cases firstRun isDigitOrComma s.toList <;> simp [parseInt]

/-- Claim C5: formatImageQuality applies its thresholds highest-first
(≥1280, ≥640, ≥480, ≥320, else), is total, and maps 1920 to 1280x720,
100 to 120x90 and the boundary 640 to 640x480. -/
theorem formatImageQuality_correct :
    (∀ w : Int,
      (1280 ≤ w → formatImageQuality w = "1280x720")
      ∧ (640 ≤ w → w < 1280 → formatImageQuality w = "640x480")
      ∧ (480 ≤ w → w < 640 → formatImageQuality w = "480x360")
      ∧ (320 ≤ w → w < 480 → formatImageQuality w = "320x180")
      ∧ (w < 320 → formatImageQuality w = "120x90"))
    ∧ formatImageQuality 1920 = "1280x720"
    ∧ formatImageQuality 100 = "120x90"
    ∧ formatImageQuality 640 = "640x480" := by
  refine ⟨?_, by decide, by decide, by decide⟩
  intro w
  refine ⟨?_, ?_, ?_, ?_, ?_⟩ <;>
    intros <;> unfold formatImageQuality <;> split_ifs <;>
    first
    | rfl
    | (exfalso; omega)

theorem formatImageQuality_correct_witness :
    (1280 : Int) ≤ 1920 ∧ formatImageQuality 1920 = "1280x720" :=
  ⟨by decide, (formatImageQuality_correct.1 1920).1 (by decide)⟩

/-- Claim C7: every normalization function is deterministic; repeated
application to the same input yields equal outputs, which holds because
each is embedded as a pure function of its argument, exactly as the
source functions read no mutable state. -/
theorem normalizers_deterministic :
    (∀ x : Option String, parseDuration x = parseDuration x)
    ∧ (∀ x : Option String, parseViewCount x = parseViewCount x)
    ∧ (∀ w : Int, formatImageQuality w = formatImageQuality w)
    ∧ (∀ s : String, formatDuration s = formatDuration s) :=
  ⟨fun _ => rfl, fun _ => rfl, fun _ => rfl, fun _ => rfl⟩

/-- Claim C8: for every validated upstream record and either value of the
includeStreamUrl flag, the transformed record has type "youtube" and url
"https://www.youtube.com/watch?v=" followed by the video id, and when
the flag is false the streamUrl is null. -/
theorem transformYouTubeVideo_invariants :
    ∀ (getStream : String → Except String String) (v : YouTubeVideoAPIResponse)
      (b : Bool),
      (transformYouTubeVideo getStream v b).type = "youtube"
      ∧ (transformYouTubeVideo getStream v b).url
          = "https://www.youtube.com/watch?v=" ++ v.id
      ∧ (b = false → (transformYouTubeVideo getStream v b).streamUrl = none) := by
  intro gs v b
  refine ⟨rfl, rfl, ?_⟩
  intro hb
  subst hb
  rfl

theorem transformYouTubeVideo_invariants_witness :
    (false : Bool) = false
    ∧ (transformYouTubeVideo sampleGetStream sampleVideo false).streamUrl = none :=
  ⟨rfl, (transformYouTubeVideo_invariants sampleGetStream sampleVideo false).2.2 rfl⟩

/-- Claim C9: the image array of the transformed record is exactly the
upstream thumbnail list mapped in order to entries whose url is the
thumbnail url unchanged and whose quality is formatImageQuality of the
thumbnail width (hence one entry per thumbnail, same order). -/
theorem transformYouTubeVideo_image_correct :
    ∀ (getStream : String → Except String String) (v : YouTubeVideoAPIResponse)
      (b : Bool),
      (transformYouTubeVideo getStream v b).image
          = v.thumbnail.thumbnails.map
              (fun t => ImageEntry.mk (formatImageQuality t.width) t.url)
      ∧ (transformYouTubeVideo getStream v b).image.length
          = v.thumbnail.thumbnails.length
      ∧ ∀ i : Nat,
          (transformYouTubeVideo getStream v b).image.get? i
            = (v.thumbnail.thumbnails.get? i).map
                (fun t => ImageEntry.mk (formatImageQuality t.width) t.url) := by
  intro gs v b
  refine ⟨rfl, by simp [transformYouTubeVideo], ?_⟩
  intro i
  simp [transformYouTubeVideo]

/-- Claim C10: parseViewCount is absent exactly when the input is
undefined, empty, or has no digit and no comma; on "," (a run of commas
only) it returns the present number NaN, not the absent value. -/
theorem parseViewCount_nan_behaviour :
    (∀ s : String, parseViewCount (some s) = none
        ↔ ∀ c ∈ s.toList, isDigitOrComma c = false)
    ∧ parseViewCount none = none
    ∧ parseViewCount (some ",") = some JSNum.nan := by
  refine ⟨?_, rfl, by decide⟩
  intro s
  by_cases hs : s = ""
  · subst hs
    constructor
    · intro _ c hc
      have : ("" : String).toList = [] := rfl
      rw [this] at hc
      exact absurd hc (List.not_mem_nil c)
    · intro _
      decide
  · simp only [parseViewCount, hs, if_false]
    cases h : firstRun isDigitOrComma s.toList with
    | none =>
      constructor
      · intro _
        exact (firstRun_eq_none_iff isDigitOrComma s.toList).mp h
      · intro _
        rfl
    | some run =>
      simp only []
      constructor
      · intro habs
        exact absurd habs (by simp)
      · intro hall
        rw [(firstRun_eq_none_iff isDigitOrComma s.toList).mpr hall] at h
        exact absurd h (by simp)

theorem parseViewCount_nan_behaviour_witness :
    parseViewCount (some "abc") = none :=
  (parseViewCount_nan_behaviour.1 "abc").mpr (by decide)

/-- Claim C6 (the link-derivation implementation is modelled from the
spec): deriveLinks fails with DecodeError on every token that is not
valid base64 and on every token whose decoded byte length is not a
multiple of the 8-byte cipher block size, regardless of the decryption
function and the requested tiers. -/
theorem deriveLinks_decode_error :
    (∀ (decrypt : List Nat → Except Unit String) (token : String)
        (tiers : List Nat),
        decodeBase64 token = none →
        deriveLinks decrypt token tiers = Except.error DeriveError.DecodeError)
    ∧ (∀ (decrypt : List Nat → Except Unit String) (token : String)
        (tiers : List Nat) (bytes : List Nat),
        decodeBase64 token = some bytes → bytes.length % 8 ≠ 0 →
        deriveLinks decrypt token tiers = Except.error DeriveError.DecodeError) := by
  constructor
  · intro d t ts h
    simp [deriveLinks, h]
  · intro d t ts bs h hlen
    simp [deriveLinks, h, hlen]

theorem deriveLinks_decode_error_witness :
    decodeBase64 "!!!!" = none
    ∧ deriveLinks (fun _ => Except.error ()) "!!!!" [320]
        = Except.error DeriveError.DecodeError
    ∧ decodeBase64 "QQ==" = some [65]
    ∧ ([65] : List Nat).length % 8 ≠ 0
    ∧ deriveLinks (fun _ => Except.error ()) "QQ==" [320]
        = Except.error DeriveError.DecodeError :=
  ⟨by decide,
   deriveLinks_decode_error.1 (fun _ => Except.error ()) "!!!!" [320] (by decide),
   by decide, by decide,
   deriveLinks_decode_error.2 (fun _ => Except.error ()) "QQ==" [320] [65]
     (by decide) (by decide)⟩

theorem append_colon_ne_empty (a b : String) : a ++ ":" ++ b ≠ "" := by
  intro h
  have hd := congrArg String.data h
  simp [String.data_append] at hd

theorem formatDuration_ne_empty (s : String) : formatDuration s ≠ "" := by
  unfold formatDuration
  cases findPT s.toList with
  | none => decide
  | some rest =>
    simp only []
    split
    · exact append_colon_ne_empty _ _
    · exact append_colon_ne_empty _ _

/-- Claim C1 counterexample: on the unparseable input "abc",
parseDuration returns the present value NaN, not the absent-value
sentinel null, so the FieldNormalizer operations do not return null on
every unparseable input. -/
theorem normalizers_null_counterexample :
    parseDuration (some "abc") = some JSNum.nan
    ∧ parseDuration (some "abc") ≠ none := by
  exact ⟨by decide, by decide⟩

/-- Claim C1 (amended): every FieldNormalizer operation is total (the
embedding is a total function and each always yields a result), but the
absent value is returned only for missing or empty duration input and
for view-count input with no digit or comma; on other malformed input
parseDuration and parseViewCount yield the present number NaN, and
formatDuration never yields an absent value, falling back to "0:00". -/
theorem normalizers_total_amended :
    (∀ x : Option String, parseDuration x = none ↔ (x = none ∨ x = some ""))
    ∧ (∀ s : String, parseViewCount (some s) = none →
        ∀ c ∈ s.toList, isDigitOrComma c = false)
    ∧ (∀ w : Int, formatImageQuality w = "1280x720"
        ∨ formatImageQuality w = "640x480"
        ∨ formatImageQuality w = "480x360"
        ∨ formatImageQuality w = "320x180"
        ∨ formatImageQuality w = "120x90")
    ∧ (∀ s : String, formatDuration s ≠ "")
    ∧ parseDuration (some "abc") = some JSNum.nan
    ∧ parseViewCount (some ",") = some JSNum.nan := by
  refine ⟨?_, ?_, ?_, formatDuration_ne_empty, by decide, by decide⟩
  · intro x
    cases x with
    | none => simp [parseDuration]
    | some s =>
      by_cases hs : s = ""
      · subst hs; simp [parseDuration]
      · simp [parseDuration, hs]
  · intro s habs
    by_cases hs : s = ""
    · subst hs
      intro c hc
      have : ("" : String).toList = [] := rfl
      rw [this] at hc
      exact absurd hc (List.not_mem_nil c)
    · simp only [parseViewCount, hs, if_false] at habs
      cases h : firstRun isDigitOrComma s.toList with
      | none => exact (firstRun_eq_none_iff isDigitOrComma s.toList).mp h
      | some run => rw [h] at habs; exact absurd habs (by simp)
  · intro w
    unfold formatImageQuality
    split_ifs <;> simp

theorem normalizers_total_amended_witness :
    parseDuration none = none :=
  (normalizers_total_amended.1 none).mpr (Or.inl rfl)
theorem natDigitsRevAux_zero (fuel : Nat) : natDigitsRevAux fuel 0 = [] := by
  cases fuel <;> rfl

theorem natDigitsRevAux_congr :
    ∀ f1 f2 n, n ≤ f1 → n ≤ f2 → natDigitsRevAux f1 n = natDigitsRevAux f2 n := by
  intro f1
  induction f1 with
  | zero =>
    intro f2 n h1 _
    have : n = 0 := Nat.le_zero.mp h1
    subst this
    rw [natDigitsRevAux_zero, natDigitsRevAux_zero]
  | succ k ih =>
    intro f2 n h1 h2
    cases n with
    | zero => rw [natDigitsRevAux_zero, natDigitsRevAux_zero]
    | succ m =>
      cases f2 with
      | zero => omega
      | succ k2 =>
        show digitChar ((m + 1) % 10) :: natDigitsRevAux k ((m + 1) / 10)
            = digitChar ((m + 1) % 10) :: natDigitsRevAux k2 ((m + 1) / 10)
        have hd : (m + 1) / 10 < m + 1 := Nat.div_lt_self (Nat.succ_pos m) (by omega)
        rw [ih k2 ((m + 1) / 10) (by omega) (by omega)]

theorem natDigitsRev_succ (n : Nat) (h : 0 < n) :
    natDigitsRev n = digitChar (n % 10) :: natDigitsRev (n / 10) := by
  cases n with
  | zero => omega
  | succ m =>
    show natDigitsRevAux (m + 1) (m + 1) = _
    have hd : (m + 1) / 10 < m + 1 := Nat.div_lt_self (Nat.succ_pos m) (by omega)
    show digitChar ((m + 1) % 10) :: natDigitsRevAux m ((m + 1) / 10) = _
    rw [natDigitsRevAux_congr m ((m + 1) / 10) ((m + 1) / 10) (by omega) (le_refl _)]
    rfl

theorem natDigitsRev_mem (n : Nat) :
    ∀ c ∈ natDigitsRev n, ∃ d, d < 10 ∧ c = digitChar d := by
  induction n using Nat.strong_induction_on with
  | _ n ih =>
    rcases Nat.eq_zero_or_pos n with h | h
    · subst h
      intro c hc
      exact absurd hc (by rw [show natDigitsRev 0 = [] from rfl]; exact List.not_mem_nil c)
    · rw [natDigitsRev_succ n h]
      intro c hc
      rcases List.mem_cons.mp hc with h1 | h2
      · exact ⟨n % 10, Nat.mod_lt n (by omega), h1⟩
      · exact ih (n / 10) (Nat.div_lt_self h (by omega)) c h2

theorem digitsVal_natDigitsRev (n : Nat) :
    digitsVal digitVal 10 (natDigitsRev n).reverse = n := by
  induction n using Nat.strong_induction_on with
  | _ n ih =>
    rcases Nat.eq_zero_or_pos n with h | h
    · subst h; rfl
    · rw [natDigitsRev_succ n h, List.reverse_cons]
      have hval : digitVal (digitChar (n % 10)) = some (n % 10) :=
        (by decide : ∀ d < 10, digitVal (digitChar d) = some d) (n % 10)
          (Nat.mod_lt n (by omega))
      have hih := ih (n / 10) (Nat.div_lt_self h (by omega))
      simp only [digitsVal, List.foldl_append, List.foldl_cons, List.foldl_nil] at hih ⊢
      rw [hih, hval]
      simp only [Option.getD_some]
      omega
theorem natDigitsRev_reverse_struct (n : Nat) (h : 0 < n) :
    ∃ d rest, 0 < d ∧ d < 10 ∧ (natDigitsRev n).reverse = digitChar d :: rest
      ∧ ∀ c ∈ rest, ∃ e, e < 10 ∧ c = digitChar e := by
  induction n using Nat.strong_induction_on with
  | _ n ih =>
    rw [natDigitsRev_succ n h, List.reverse_cons]
    by_cases h10 : n / 10 = 0
    · refine ⟨n % 10, [], ?_, Nat.mod_lt n (by omega), ?_, ?_⟩
      · have : n < 10 := by omega
        omega
      · rw [h10, show natDigitsRev 0 = [] from rfl]
        rfl
      · intro c hc
        exact absurd hc (List.not_mem_nil c)
    · obtain ⟨d, rest, hd0, hd10, hrev, hrest⟩ :=
        ih (n / 10) (Nat.div_lt_self h (by omega)) (Nat.pos_of_ne_zero h10)
      refine ⟨d, rest ++ [digitChar (n % 10)], hd0, hd10, ?_, ?_⟩
      · rw [hrev]
        rfl
      · intro c hc
        rcases List.mem_append.mp hc with h1 | h2
        · exact hrest c h1
        · refine ⟨n % 10, Nat.mod_lt n (by omega), ?_⟩
          cases List.mem_singleton.mp h2
          rfl

theorem natRepr_toList (n : Nat) (h : n ≠ 0) :
    (natRepr n).toList = (natDigitsRev n).reverse := by
  simp [natRepr, h]

theorem natRepr_toList_digits (n : Nat) :
    ∀ c ∈ (natRepr n).toList, c.isDigit = true := by
  by_cases h : n = 0
  · subst h
    intro c hc
    have : (natRepr 0).toList = ['0'] := rfl
    rw [this] at hc
    cases List.mem_singleton.mp hc
    decide
  · rw [natRepr_toList n h]
    intro c hc
    obtain ⟨d, hd, rfl⟩ := natDigitsRev_mem n c (List.mem_reverse.mp hc)
    exact (by decide : ∀ e < 10, (digitChar e).isDigit = true) d hd

theorem natRepr_toList_ne_nil (n : Nat) : (natRepr n).toList ≠ [] := by
  by_cases h : n = 0
  · subst h; decide
  · rw [natRepr_toList n h]
    intro habs
    have h1 : natDigitsRev n = [] := by
      have := congrArg List.reverse habs
      simpa using this
    rw [natDigitsRev_succ n (Nat.pos_of_ne_zero h)] at h1
    exact absurd h1 (by simp)

theorem takeWhile_all {α} (p : α → Bool) :
    ∀ l : List α, (∀ c ∈ l, p c = true) → l.takeWhile p = l := by
  intro l
  induction l with
  | nil => intro _; rfl
  | cons a l ih =>
    intro h
    have ha : p a = true := h a (List.mem_cons_self a l)
    simp [List.takeWhile_cons, ha, ih (fun x hx => h x (List.mem_cons_of_mem a hx))]

theorem takeWhile_append_not {α} (p : α → Bool) (l r : List α) (c : α)
    (hl : ∀ a ∈ l, p a = true) (hc : p c = false) :
    (l ++ c :: r).takeWhile p = l ∧ (l ++ c :: r).dropWhile p = c :: r := by
  induction l with
  | nil => simp [List.takeWhile_cons, List.dropWhile_cons, hc]
  | cons a l ih =>
    have ha : p a = true := hl a (List.mem_cons_self a l)
    have := ih (fun x hx => hl x (List.mem_cons_of_mem a hx))
    simp [List.takeWhile_cons, List.dropWhile_cons, ha, this]
theorem parseRadix_digits (sign : Int) (l : List Char)
    (hne : l ≠ []) (hl : ∀ c ∈ l, c.isDigit = true) :
    parseRadix digitVal 10 sign l = JSNum.int (sign * Int.ofNat (digitsVal digitVal 10 l)) := by
  unfold parseRadix
  have hall : ∀ c ∈ l, (digitVal c).isSome = true := by
    intro c hc
    have hd := hl c hc
    simp only [Char.isDigit, Bool.and_eq_true, decide_eq_true_eq] at hd
    have hgoal : '0' ≤ c ∧ c ≤ '9' := ⟨hd.1, hd.2⟩
    simp [digitVal, hgoal]
  rw [takeWhile_all _ l hall]
  simp [hne]

theorem parseIntChars_natRepr (n : Nat) :
    parseIntChars (natRepr n).toList = JSNum.int (Int.ofNat n) := by
  by_cases h0 : n = 0
  · subst h0; decide
  · have hpos : 0 < n := Nat.pos_of_ne_zero h0
    obtain ⟨d, rest, hd0, hd10, hrev, hrest⟩ := natDigitsRev_reverse_struct n hpos
    have htl : (natRepr n).toList = digitChar d :: rest := by
      rw [natRepr_toList n h0, hrev]
    have hdigits : ∀ c ∈ digitChar d :: rest, c.isDigit = true := by
      rw [← htl]; exact natRepr_toList_digits n
    have hroundtrip : digitsVal digitVal 10 (digitChar d :: rest) = n := by
      rw [← hrev]; exact digitsVal_natDigitsRev n
    rw [htl]
    unfold parseIntChars
    have hspace : isSpaceChar (digitChar d) = false :=
      (by decide : ∀ e < 10, isSpaceChar (digitChar e) = false) d hd10
    rw [List.dropWhile_cons, hspace]
    simp only [Bool.false_eq_true, if_false]
    split
    · rename_i heq
      have : digitChar d = '-' := (List.cons.injEq _ _ _ _).mp heq |>.1
      exact absurd this ((by decide : ∀ e < 10, digitChar e ≠ '-') d hd10)
    · rename_i heq
      have : digitChar d = '+' := (List.cons.injEq _ _ _ _).mp heq |>.1
      exact absurd this ((by decide : ∀ e < 10, digitChar e ≠ '+') d hd10)
    · unfold parseIntBody
      split
      · rename_i heq
        have : digitChar d = '0' := (List.cons.injEq _ _ _ _).mp heq |>.1
        exact absurd this
          ((by decide : ∀ e < 10, 0 < e → digitChar e ≠ '0') d hd10 hd0)
      · rw [parseRadix_digits 1 (digitChar d :: rest) (by simp) hdigits]
        rw [hroundtrip, one_mul]

theorem toStr_ofNat (n : Nat) : JSNum.toStr (JSNum.int (Int.ofNat n)) = natRepr n := by
  simp [JSNum.toStr]
theorem matchNumGroup_hit (letter : Char) (ds rest : List Char)
    (hne : ds ≠ []) (hds : ∀ c ∈ ds, c.isDigit = true)
    (hlet : letter.isDigit = false) :
    matchNumGroup letter (ds ++ letter :: rest) = (some ds, rest) := by
  obtain ⟨ht, hd⟩ := takeWhile_append_not Char.isDigit ds rest letter hds hlet
  unfold matchNumGroup
  rw [ht, hd]
  cases ds with
  | nil => exact absurd rfl hne
  | cons a l => simp

theorem matchNumGroup_miss (letter other : Char) (ds rest : List Char)
    (hne : ds ≠ []) (hds : ∀ c ∈ ds, c.isDigit = true)
    (hother : other.isDigit = false) (hneq : other ≠ letter) :
    matchNumGroup letter (ds ++ other :: rest) = (none, ds ++ other :: rest) := by
  obtain ⟨ht, hd⟩ := takeWhile_append_not Char.isDigit ds rest other hds hother
  unfold matchNumGroup
  rw [ht, hd]
  cases ds with
  | nil => exact absurd rfl hne
  | cons a l => simp [hneq]

theorem findPT_cons (rest : List Char) : findPT ('P' :: 'T' :: rest) = some rest := by
  simp [findPT]

theorem findPT_none (cs : List Char)
    (h : ∀ l r : List Char, cs ≠ l ++ 'P' :: 'T' :: r) : findPT cs = none := by
  induction cs with
  | nil => rfl
  | cons c cs ih =>
    have hsub : ∀ l r : List Char, cs ≠ l ++ 'P' :: 'T' :: r := by
      intro l r habs
      exact h (c :: l) r (by rw [habs]; rfl)
    by_cases hc : c = 'P'
    · subst hc
      cases cs with
      | nil => rfl
      | cons t rest =>
        by_cases ht : t = 'T'
        · subst ht
          exact absurd rfl (h [] rest)
        · show findPT ('P' :: t :: rest) = none
          have : (t == 'T') = false := by simp [ht]
          simp only [findPT, beq_self_eq_true, if_true, this, Bool.false_eq_true, if_false]
          exact ih hsub
    · have : (c == 'P') = false := by simp [hc]
      simp only [findPT, this, Bool.false_eq_true, if_false]
      exact ih hsub
theorem formatDuration_with_hours (h m sec : Nat) (hh : 0 < h) :
    formatDuration ("PT" ++ natRepr h ++ "H" ++ natRepr m ++ "M" ++ natRepr sec ++ "S")
      = natRepr h ++ ":" ++ padStart 2 '0' (natRepr m) ++ ":"
        ++ padStart 2 '0' (natRepr sec) := by
  have hPT : ("PT" : String).data = ['P', 'T'] := rfl
  have hHd : ("H" : String).data = ['H'] := rfl
  have hMd : ("M" : String).data = ['M'] := rfl
  have hSd : ("S" : String).data = ['S'] := rfl
  have hdata : ("PT" ++ natRepr h ++ "H" ++ natRepr m ++ "M" ++ natRepr sec ++ "S").toList
      = 'P' :: 'T' :: ((natRepr h).data ++ 'H'
          :: ((natRepr m).data ++ 'M' :: ((natRepr sec).data ++ 'S' :: []))) := by
    show ("PT" ++ natRepr h ++ "H" ++ natRepr m ++ "M" ++ natRepr sec ++ "S").data = _
    simp only [String.data_append, hPT, hHd, hMd, hSd, List.cons_append, List.nil_append,
      List.append_assoc]
  have hne_h : (natRepr h).data ≠ [] := natRepr_toList_ne_nil h
  have hne_m : (natRepr m).data ≠ [] := natRepr_toList_ne_nil m
  have hne_s : (natRepr sec).data ≠ [] := natRepr_toList_ne_nil sec
  have hdig_h : ∀ c ∈ (natRepr h).data, c.isDigit = true := natRepr_toList_digits h
  have hdig_m : ∀ c ∈ (natRepr m).data, c.isDigit = true := natRepr_toList_digits m
  have hdig_s : ∀ c ∈ (natRepr sec).data, c.isDigit = true := natRepr_toList_digits sec
  have h1 : matchNumGroup 'H' ((natRepr h).data ++ 'H'
        :: ((natRepr m).data ++ 'M' :: ((natRepr sec).data ++ 'S' :: [])))
      = (some (natRepr h).data,
          (natRepr m).data ++ 'M' :: ((natRepr sec).data ++ 'S' :: [])) :=
    matchNumGroup_hit 'H' _ _ hne_h hdig_h (by decide)
  have h2 : matchNumGroup 'M' ((natRepr m).data ++ 'M' :: ((natRepr sec).data ++ 'S' :: []))
      = (some (natRepr m).data, (natRepr sec).data ++ 'S' :: []) :=
    matchNumGroup_hit 'M' _ _ hne_m hdig_m (by decide)
  have h3 : matchNumGroup 'S' ((natRepr sec).data ++ 'S' :: [])
      = (some (natRepr sec).data, []) :=
    matchNumGroup_hit 'S' _ _ hne_s hdig_s (by decide)
  have hp_h : parseIntChars (natRepr h).data = JSNum.int (Int.ofNat h) :=
    parseIntChars_natRepr h
  have hp_m : parseIntChars (natRepr m).data = JSNum.int (Int.ofNat m) :=
    parseIntChars_natRepr m
  have hp_s : parseIntChars (natRepr sec).data = JSNum.int (Int.ofNat sec) :=
    parseIntChars_natRepr sec
  have hgt : JSNum.gtZero (JSNum.int (Int.ofNat h)) = true := by
    simp [JSNum.gtZero]
    omega
  unfold formatDuration
  rw [hdata, findPT_cons]
  simp only [h1, h2, h3, hp_h, hp_m, hp_s, hgt, if_true, toStr_ofNat]
theorem formatDuration_no_hours (m sec : Nat) :
    formatDuration ("PT" ++ natRepr m ++ "M" ++ natRepr sec ++ "S")
      = natRepr m ++ ":" ++ padStart 2 '0' (natRepr sec) := by
  have hPT : ("PT" : String).data = ['P', 'T'] := rfl
  have hMd : ("M" : String).data = ['M'] := rfl
  have hSd : ("S" : String).data = ['S'] := rfl
  have hdata : ("PT" ++ natRepr m ++ "M" ++ natRepr sec ++ "S").toList
      = 'P' :: 'T' :: ((natRepr m).data ++ 'M' :: ((natRepr sec).data ++ 'S' :: [])) := by
    show ("PT" ++ natRepr m ++ "M" ++ natRepr sec ++ "S").data = _
    simp only [String.data_append, hPT, hMd, hSd, List.cons_append, List.nil_append,
      List.append_assoc]
  have hne_m : (natRepr m).data ≠ [] := natRepr_toList_ne_nil m
  have hne_s : (natRepr sec).data ≠ [] := natRepr_toList_ne_nil sec
  have hdig_m : ∀ c ∈ (natRepr m).data, c.isDigit = true := natRepr_toList_digits m
  have hdig_s : ∀ c ∈ (natRepr sec).data, c.isDigit = true := natRepr_toList_digits sec
  have h1 : matchNumGroup 'H' ((natRepr m).data ++ 'M' :: ((natRepr sec).data ++ 'S' :: []))
      = (none, (natRepr m).data ++ 'M' :: ((natRepr sec).data ++ 'S' :: [])) :=
    matchNumGroup_miss 'H' 'M' _ _ hne_m hdig_m (by decide) (by decide)
  have h2 : matchNumGroup 'M' ((natRepr m).data ++ 'M' :: ((natRepr sec).data ++ 'S' :: []))
      = (some (natRepr m).data, (natRepr sec).data ++ 'S' :: []) :=
    matchNumGroup_hit 'M' _ _ hne_m hdig_m (by decide)
  have h3 : matchNumGroup 'S' ((natRepr sec).data ++ 'S' :: [])
      = (some (natRepr sec).data, []) :=
    matchNumGroup_hit 'S' _ _ hne_s hdig_s (by decide)
  have hp_m : parseIntChars (natRepr m).data = JSNum.int (Int.ofNat m) :=
    parseIntChars_natRepr m
  have hp_s : parseIntChars (natRepr sec).data = JSNum.int (Int.ofNat sec) :=
    parseIntChars_natRepr sec
  have hgt : JSNum.gtZero (JSNum.int 0) = false := by decide
  unfold formatDuration
  rw [hdata, findPT_cons]
  simp only [h1, h2, h3, hp_m, hp_s, hgt, Bool.false_eq_true, if_false, toStr_ofNat]

/-- Claim C3: formatDuration realizes the pattern PT(nH)?(nM)?(nS)? with
optional groups defaulting to 0: with hours present and positive it
yields H:MM:SS with minutes and seconds zero-padded to two digits, with
hours absent it yields M:SS with seconds zero-padded, and when the
pattern does not match (no "PT" occurs) it yields the literal "0:00";
"PT1H2M3S" gives "1:02:03", "PT5M9S" gives "5:09", "garbage" gives
"0:00". -/
theorem formatDuration_correct :
    (∀ s : String, (∀ l r : List Char, s.toList ≠ l ++ 'P' :: 'T' :: r) →
        formatDuration s = "0:00")
    ∧ (∀ h m sec : Nat, 0 < h →
        formatDuration ("PT" ++ natRepr h ++ "H" ++ natRepr m ++ "M"
            ++ natRepr sec ++ "S")
          = natRepr h ++ ":" ++ padStart 2 '0' (natRepr m) ++ ":"
            ++ padStart 2 '0' (natRepr sec))
    ∧ (∀ m sec : Nat,
        formatDuration ("PT" ++ natRepr m ++ "M" ++ natRepr sec ++ "S")
          = natRepr m ++ ":" ++ padStart 2 '0' (natRepr sec))
    ∧ formatDuration "PT1H2M3S" = "1:02:03"
    ∧ formatDuration "PT5M9S" = "5:09"
    ∧ formatDuration "garbage" = "0:00"
    ∧ formatDuration "PT2H" = "2:00:00"
    ∧ formatDuration "PT7S" = "0:07"
    ∧ formatDuration "PT" = "0:00" := by
  refine ⟨?_, formatDuration_with_hours, formatDuration_no_hours, by decide, by decide,
    by decide, by decide, by decide, by decide⟩
  intro s hsub
  unfold formatDuration
  rw [findPT_none s.toList hsub]

theorem formatDuration_correct_witness :
    0 < 1
    ∧ formatDuration ("PT" ++ natRepr 1 ++ "H" ++ natRepr 2 ++ "M" ++ natRepr 3 ++ "S")
        = natRepr 1 ++ ":" ++ padStart 2 '0' (natRepr 2) ++ ":"
          ++ padStart 2 '0' (natRepr 3) :=
  ⟨by decide, formatDuration_correct.2.1 1 2 3 (by decide)⟩
